import Mathlib

/-!
Shallow embedding of the aggregation pipeline of `jmhplot.py` (the JMH
benchmark-result plotting script), together with theorems checking the
specification's claims about it.

Modelling conventions:
* A pandas `DataFrame` is a schema (list of column labels) plus an ordered
  list of rows.  The three fixed columns `Benchmark`, `Score` and
  `Score Error (99.9%)` are the named fields of `Row`; the `Param: ...`
  columns live in `Row.cells`, an association list from column label to the
  cell value.  Cell values (and scores/errors) are modelled as integers:
  the grouping and filtering logic is agnostic in the value type, and the
  range filter coerces the values it compares with Python's `int`.
* Python 3.7+ `dict`s are insertion-ordered with unique keys; they are
  modelled as association lists, with `dictInsert` / `lookupA` /
  `eraseKey` / `ensureKey` / `updateFirst` reproducing `d[k] = v`,
  `d[k]` / `k in d`, `del d[k]`, insert-if-absent and in-place update.
* The single Python exception class `BenchmarkError` is modelled as an
  inductive with one constructor per distinct raise site cause (the
  f-string messages are elided); fallible functions return `Except`.
* Filesystem access (`normalize_data_frame_from_path`'s reading of csv
  files) and matplotlib rendering are outside the model: `decimate` models
  the row decimation `df.iloc[::9, :]` applied to each loaded file, and
  `process_benchmarks` takes the already-loaded merged `DataFrame` and
  returns the data that would be handed to `plot_all_results`.
-/

/-- Cause of a raised `BenchmarkError`, one constructor per raise site kind
(`jmhplot.py` raises a single exception class carrying a message; the
message strings are elided here). -/
inductive BenchmarkError where
  | noInputFiles : BenchmarkError
  | emptyResult : BenchmarkError
  | missingPrimaryParameter : BenchmarkError
  | invalidBenchmarkPattern : BenchmarkError
  | invalidRange : BenchmarkError
deriving DecidableEq, Repr

/-- Decidable equality of `Except` results, so concrete runs of the
fallible pipeline functions can be checked by `decide`. -/
instance exceptDecEq {ε α : Type} [DecidableEq ε] [DecidableEq α] :
    DecidableEq (Except ε α) := fun a b =>
  match a, b with
  | .error e, .error f =>
      if h : e = f then .isTrue (by rw [h]) else .isFalse (fun hh => h (Except.error.inj hh))
  | .ok x, .ok y =>
      if h : x = y then .isTrue (by rw [h]) else .isFalse (fun hh => h (Except.ok.inj hh))
  | .error _, .ok _ => .isFalse (fun hh => Except.noConfusion hh)
  | .ok _, .error _ => .isFalse (fun hh => Except.noConfusion hh)

/-- One measurement row.  `benchmark`, `score` and `error` are the values of
the fixed columns `Benchmark`, `Score` and `Score Error (99.9%)`; `cells`
maps the remaining column labels (the `Param: ...` columns) to values. -/
structure Row where
  benchmark : String
  score : Int
  error : Int
  cells : List (String × Int)
deriving DecidableEq, Repr

/-- A pandas data frame: a schema (the column labels) and the ordered rows. -/
structure DataFrame where
  columns : List String
  rows : List Row
deriving DecidableEq, Repr

/-- Python dict lookup `m[k]` on an association list (first matching key). -/
def lookupA {κ ν : Type} [DecidableEq κ] : List (κ × ν) → κ → Option ν
  | [], _ => none
  | p :: ps, k => if p.1 = k then some p.2 else lookupA ps k

/-- Cell value of a row at a column label (`row[column]`); rows produced by
the pipeline carry every schema column, so the default is never reached
along the pipeline's own calls. -/
def Row.cell (r : Row) (c : String) : Int :=
  (lookupA r.cells c).getD 0

/-- Python dict assignment `m[k] = v`: update the (first) existing entry in
place, else append a new entry at the end. -/
def dictInsert {κ ν : Type} [DecidableEq κ] : List (κ × ν) → κ → ν → List (κ × ν)
  | [], k, v => [(k, v)]
  | p :: ps, k, v => if p.1 = k then (p.1, v) :: ps else p :: dictInsert ps k v

/-- Python `del m[k]`: drop the (first) entry with the given key. -/
def eraseKey {κ ν : Type} [DecidableEq κ] : List (κ × ν) → κ → List (κ × ν)
  | [], _ => []
  | p :: ps, k => if p.1 = k then ps else p :: eraseKey ps k

/-- The idiom `if not k in m.keys(): m[k] = v` — insert `v` at the end when
the key is absent. -/
def ensureKey {κ ν : Type} [DecidableEq κ] (m : List (κ × ν)) (k : κ) (v : ν) :
    List (κ × ν) :=
  if (lookupA m k).isSome then m else m ++ [(k, v)]

/-- In-place mutation of the value stored at a key (`m[k].append(...)` and
the like): rewrite the (first) entry with the given key through `f`. -/
def updateFirst {κ ν : Type} [DecidableEq κ] : List (κ × ν) → κ → (ν → ν) → List (κ × ν)
  | [], _, _ => []
  | p :: ps, k, f => if p.1 = k then (p.1, f p.2) :: ps else p :: updateFirst ps k f

/-- Row decimation applied by `normalize_data_frame_from_path` to each
loaded csv file: `df = df.iloc[::9, :]` keeps the rows at positions
0, 9, 18, ... (jmhplot.py line 77). -/
def decimate {α : Type} : List α → List α
  | [] => []
  | x :: xs => x :: decimate (xs.drop 8)
termination_by l => l.length
decreasing_by
  simp only [List.length_drop, List.length_cons]
  omega

/-- Python `str.split(sep)` with a one-character separator, on character
lists: split at every occurrence of the separator; the result always has
one more piece than there are separators (`''.split(':') == ['']`). -/
def splitOnChar (sep : Char) : List Char → List (List Char)
  | [] => [[]]
  | c :: rest =>
      match splitOnChar sep rest with
      | [] => [[c]]
      | h :: t => if c = sep then [] :: h :: t else (c :: h) :: t

/-- Python `str.split(sep)` with a one-character separator, on strings. -/
def pySplit (sep : Char) (s : String) : List String :=
  (splitOnChar sep s.data).map (fun cs => String.mk cs)

/-- Drop leading whitespace characters. -/
def dropLeadingWS : List Char → List Char
  | [] => []
  | c :: rest => if c.isWhitespace then dropLeadingWS rest else c :: rest

/-- Python `str.strip()` on character lists: drop leading and trailing
whitespace (ASCII whitespace; exotic unicode spaces are outside the
model). -/
def pyStrip (cs : List Char) : List Char :=
  dropLeadingWS (dropLeadingWS cs.reverse).reverse

/-- Python `str.strip()` on strings. -/
def pyStripStr (s : String) : String :=
  String.mk (pyStrip s.data)

/-- Parameter map: parameter name to column label (`Params` in jmhplot.py). -/
abbrev Params := List (String × String)

/-- The split of a parameter map into the single primary parameter and the
remaining secondary parameters (`BMParams` namedtuple in jmhplot.py). -/
structure BMParams where
  primary : Params
  secondary : Params
deriving DecidableEq, Repr

/-- One plotted point (`BMResult` namedtuple): the primary parameter value,
the score and the score error of a row. -/
structure BMResult where
  value : Int
  score : Int
  error : Int
deriving DecidableEq, Repr

/-- The tuple of a row's secondary parameter values indexing one chart. -/
abbrev SecondaryKey := List Int

/-- Grouping produced by `extract_results_per_param`: secondary-value tuple
to (benchmark name to ordered points), both levels insertion-ordered. -/
abbrev ResultSets := List (SecondaryKey × List (String × List BMResult))

/-- Body of the column loop of `extract_params` (jmhplot.py lines 93-96):
split the label on `:`; when there are exactly two fields and the first
field (untrimmed) is `Param`, store the label under the stripped second
field. -/
def extractParamsStep (ps : Params) (column : String) : Params :=
  match pySplit ':' column with
  | [f0, f1] => if f0 = "Param" then dictInsert ps (pyStripStr f1) column else ps
  | _ => ps

/-- Function `extract_params` (jmhplot.py lines 91-98): a column label is a parameter
column iff it splits on `:` into exactly two fields with the first field
(untrimmed) equal to `Param`; the map sends the stripped second field to
the original label. -/
def extract_params (columns : List String) : Params :=
  columns.foldl extractParamsStep []

/-- Whether `extract_params` treats a column label as a parameter column:
exactly two `:`-separated fields, the first one literally `Param`. -/
def isParamColumn (c : String) : Bool :=
  match pySplit ':' c with
  | [f0, _] => decide (f0 = "Param")
  | _ => false

/-- The parameter name a qualifying column label yields: its second
`:`-separated field, stripped. -/
def paramNameOf (c : String) : String :=
  match pySplit ':' c with
  | [_, f1] => pyStripStr f1
  | _ => ""

/-- The last column label among `columns` that qualifies as a parameter
column for the name `n`; this is the label `extract_params` ends up
storing under `n` (later assignments to a dict key overwrite earlier
ones). -/
def lastParamLabel (columns : List String) (n : String) : Option String :=
  (columns.filter (fun c => isParamColumn c && decide (paramNameOf c = n))).getLast?

/-- Function `split_params` (jmhplot.py lines 104-114): extract the named primary
parameter into a one-entry map and delete it from the source map, which
becomes the secondary map. -/
def split_params (params : Params) (primary_param_name : String) :
    Except BenchmarkError BMParams :=
  match lookupA params primary_param_name with
  | none => .error .missingPrimaryParameter
  | some label =>
      .ok { primary := [(primary_param_name, label)]
            secondary := eraseKey params primary_param_name }

/-- Function `tuple_of_secondary_values` (jmhplot.py lines 137-141): the row's values
at the secondary parameter columns, in the secondary map's order. -/
def tuple_of_secondary_values (params : BMParams) (row : Row) : SecondaryKey :=
  params.secondary.map (fun p => row.cell p.2)

/-- The points a single row contributes: one `BMResult` per entry of the
primary map (the loop `for _, column in params.primary.items()` of
jmhplot.py lines 129-132); after `split_params` the primary map has
exactly one entry. -/
def primaryEntries (params : BMParams) (row : Row) : List BMResult :=
  params.primary.map (fun p => { value := row.cell p.2, score := row.score, error := row.error })

/-- Body of the row loop of `extract_results_per_param` (jmhplot.py lines
123-132): ensure the secondary-tuple group and the benchmark bucket exist,
then append the row's point(s) to the bucket. -/
def extractStep (params : BMParams) (rs : ResultSets) (row : Row) : ResultSets :=
  let key := tuple_of_secondary_values params row
  updateFirst (ensureKey rs key []) key
    (fun set =>
      updateFirst (ensureKey set row.benchmark []) row.benchmark
        (fun pts => pts ++ primaryEntries params row))

/-- Function `extract_results_per_param` (jmhplot.py lines 121-134): fold the row
loop over the data frame's rows in order, starting from the empty dict. -/
def extract_results_per_param (df : DataFrame) (params : BMParams) : ResultSets :=
  df.rows.foldl (extractStep params) []

/-- The points stored under a secondary key and a benchmark name (empty when
either level has no such entry). -/
def bucketOf (rs : ResultSets) (k : SecondaryKey) (b : String) : List BMResult :=
  (lookupA ((lookupA rs k).getD []) b).getD []

/-- Whether the grouping holds a bucket for this key and benchmark name. -/
def hasBucket (rs : ResultSets) (k : SecondaryKey) (b : String) : Bool :=
  match lookupA rs k with
  | none => false
  | some set => (lookupA set b).isSome

/-- Total number of points in one group's benchmark buckets. -/
def bucketLens (set : List (String × List BMResult)) : Nat :=
  (set.map (fun p => p.2.length)).sum

/-- Total number of points stored in a grouping, over all secondary keys
and all benchmark buckets. -/
def totalPoints (rs : ResultSets) : Nat :=
  (rs.map (fun g => bucketLens g.2)).sum

/-- The secondary keys of a grouping, in insertion order. -/
def keysOf (rs : ResultSets) : List SecondaryKey :=
  rs.map Prod.fst

/-- Accumulate the digits of a Python integer literal after its first digit:
a single underscore may stand between two digits (`int('1_0') == 10`),
anything else is rejected. -/
def pyNatAux : Nat → List Char → Option Nat
  | acc, [] => some acc
  | acc, '_' :: c :: rest =>
      if c.isDigit then pyNatAux (acc * 10 + (c.toNat - 48)) rest else none
  | acc, c :: rest =>
      if c.isDigit then pyNatAux (acc * 10 + (c.toNat - 48)) rest else none

/-- The digit part of a Python integer literal: at least one digit, with
single underscores allowed between digits. -/
def pyNatDigits : List Char → Option Nat
  | [] => none
  | c :: rest => if c.isDigit then pyNatAux (c.toNat - 48) rest else none

/-- Python's `int(s)` on a string: optional surrounding whitespace, optional
sign, then ASCII digits with single underscores between digits; `none`
models the `ValueError` Python raises otherwise.  (Unicode digit forms are
outside the model.) -/
def pyInt (s : String) : Option Int :=
  match pyStrip s.data with
  | '+' :: rest => (pyNatDigits rest).map Int.ofNat
  | '-' :: rest => (pyNatDigits rest).map (fun n => -(Int.ofNat n : Int))
  | cs => (pyNatDigits cs).map Int.ofNat

/-- The value of `sys.maxsize` on a 64-bit platform, the sentinel jmhplot.py uses for a
missing range bound (lines 258-259). -/
def maxsize : Int := 9223372036854775807

/-- The resolved lower bound of a range string's left side: `-maxsize` when
the side is empty, else Python `int` parsing (jmhplot.py lines 258-262). -/
def lowerRangeBound (lo : String) : Option Int :=
  if lo.length > 0 then pyInt lo else some (-maxsize)

/-- The resolved upper bound of a range string's right side: `maxsize` when
the side is empty, else Python `int` parsing (jmhplot.py lines 259-264). -/
def upperRangeBound (hi : String) : Option Int :=
  if hi.length > 0 then pyInt hi else some maxsize

/-- Function `filter_for_range` (jmhplot.py lines 252-271): a range string that does
not split on `<` into exactly two sides leaves the frame unchanged;
otherwise the sides resolve to bounds (failing like Python `int` on a
non-empty unparsable side), the bounds must be ordered, and rows are kept
when the value in column `Param: <primary_param_name>` lies in the
inclusive range. -/
def filter_for_range (df : DataFrame) (primary_param_name : String)
    (select_range : String) : Except BenchmarkError DataFrame :=
  match pySplit '<' select_range with
  | [lo, hi] =>
      match lowerRangeBound lo, upperRangeBound hi with
      | some low, some high =>
          if low ≤ high then
            .ok { df with
                  rows := df.rows.filter (fun r =>
                    decide (low ≤ r.cell ("Param: " ++ primary_param_name) ∧
                      r.cell ("Param: " ++ primary_param_name) ≤ high)) }
          else .error .invalidRange
      | _, _ => .error .invalidRange
  | _ => .ok df

/-- Whether `s` occurs at the very start of `cs`. -/
def startsWithSub : List Char → List Char → Bool
  | [], _ => true
  | _ :: _, [] => false
  | a :: as, b :: bs => a = b && startsWithSub as bs

/-- Whether `s` occurs anywhere in `cs` (case-sensitive substring). -/
def hasSubAnywhere (s : List Char) : List Char → Bool
  | [] => s.isEmpty
  | c :: rest => startsWithSub s (c :: rest) || hasSubAnywhere s rest

/-- Python's regex metacharacters outside character classes (the last two
entries are the brace characters, written by code point): a piece made of
other characters only is matched by `re` as a literal string. -/
def regexMetaChars : List Char :=
  ['.', '^', '$', '*', '+', '?', '[', ']', '\\', '|', '(', ')', Char.ofNat 123, Char.ofNat 125]

/-- Whether a pattern piece contains no regex metacharacter.  jmhplot.py
line 247 splices the comma-separated pieces verbatim into the pattern
`\S*(p1|...|pn)\S*`, so only such pieces act as literal substrings; a
piece with a metacharacter that passes the first-character validation
(for example `a+`, since `+` is in the allowed class) acts as a regex
fragment instead. -/
def regexLiteralPiece (s : String) : Bool :=
  s.data.all (fun c => !(regexMetaChars.contains c))

/-- Matching of the pattern jmhplot.py line 247 builds, `\S*(s1|...|sn)\S*`,
with Python's `re.match` (anchored at the start of the string), for
pattern pieces that satisfy `regexLiteralPiece` — verbatim splicing then
makes the group a literal alternation, and a match exists iff some piece
occurs at a position reachable from the start across non-whitespace
characters only.  Pieces containing regex metacharacters match as regex
fragments in the code and are outside this matcher; whitespace is ASCII
whitespace. -/
def scanMatch (bms : List String) : List Char → Bool
  | [] => bms.any (fun s => s.data.isEmpty)
  | c :: rest =>
      bms.any (fun s => startsWithSub s.data (c :: rest)) ||
        (!c.isWhitespace && scanMatch bms rest)

/-- The validation jmhplot.py lines 240-244 applies to one comma-separated
pattern piece: `re.match('[A-Za-z0-9_\-+]', piece)`, which only tests that
the piece's first character is in the class. -/
def allowedFirstChar (s : String) : Bool :=
  match s.data with
  | [] => false
  | c :: _ => c.isAlpha || c.isDigit || decide (c = '_') || decide (c = '-') || decide (c = '+')

/-- Function `filter_for_benchmarks` (jmhplot.py lines 234-249): `None` or the empty
string passes the frame through; otherwise the pattern list is split on
commas, each piece's first character is validated, and a row is kept when
`re.match` succeeds on its benchmark name against `\S*(p1|...|pn)\S*`.
The row predicate uses `scanMatch`, which renders the compiled regex
exactly for pieces that satisfy `regexLiteralPiece`; the validation and
error behavior does not depend on that restriction. -/
def filter_for_benchmarks (df : DataFrame) (report_benchmarks : Option String) :
    Except BenchmarkError DataFrame :=
  match report_benchmarks with
  | none => .ok df
  | some rb =>
      if rb = "" then .ok df
      else
        let report_bms := pySplit ',' rb
        if report_bms.all allowedFirstChar then
          .ok { df with
                rows := df.rows.filter (fun r => scanMatch report_bms r.benchmark.data) }
        else .error .invalidBenchmarkPattern

/-- The data `process_benchmarks` hands to the rendering stage: the fully
filtered frame, the parameter split and the grouping. -/
structure PipelineOutput where
  frame : DataFrame
  params : BMParams
  results : ResultSets
deriving DecidableEq, Repr

/-- Function `process_benchmarks` (jmhplot.py lines 274-298) from the point where the
merged data frame has been loaded: the three zero-row checkpoints, the two
filters, the parameter split, and the grouping.  Returns the data handed
to `plot_all_results` (the rendering itself is outside the model). -/
def process_benchmarks (loaded : DataFrame) (primary_param_name : String)
    (report_benchmarks : Option String) (select_range : String) :
    Except BenchmarkError PipelineOutput :=
  if loaded.rows.length = 0 then .error .emptyResult
  else
    match filter_for_benchmarks loaded report_benchmarks with
    | .error e => .error e
    | .ok df1 =>
        if df1.rows.length = 0 then .error .emptyResult
        else
          match filter_for_range df1 primary_param_name select_range with
          | .error e => .error e
          | .ok df2 =>
              if df2.rows.length = 0 then .error .emptyResult
              else
                match split_params (extract_params df2.columns) primary_param_name with
                | .error e => .error e
                | .ok params =>
                    .ok { frame := df2, params := params,
                          results := extract_results_per_param df2 params }

/-- Modelled from the spec: the Parameter Extractor as claim C5 words it —
a label qualifies iff it splits on `:` into exactly two non-empty parts
with the first part, trimmed, equal to the literal `Param`; the entry maps
the trimmed second part to the original label.  Kept for comparison with
`extract_params`, which is translated from the code. -/
def extract_params_claimed (columns : List String) : Params :=
  columns.foldl
    (fun ps column =>
      match pySplit ':' column with
      | [f0, f1] =>
          if pyStripStr f0 = "Param" ∧ f0 ≠ "" ∧ f1 ≠ "" then dictInsert ps (pyStripStr f1) column else ps
      | _ => ps)
    []

/-- Modelled from the spec: the numeric-range filter as claim C2 words it —
an empty side of the `<` means no bound at all (minus or plus infinity),
failure happens exactly when a non-empty side does not parse or when two
present bounds are out of order.  Kept for comparison with
`filter_for_range`, which is translated from the code. -/
def filter_for_range_claimed (df : DataFrame) (primary_param_name : String)
    (select_range : String) : Except BenchmarkError DataFrame :=
  match pySplit '<' select_range with
  | [lo, hi] =>
      match (if lo = "" then some none else (pyInt lo).map some),
          (if hi = "" then some none else (pyInt hi).map some) with
      | some lowB, some highB =>
          if (match lowB, highB with
              | some l, some h => decide (l ≤ h)
              | _, _ => true) then
            .ok { df with
                  rows := df.rows.filter (fun r =>
                    (match lowB with
                     | some l => decide (l ≤ r.cell ("Param: " ++ primary_param_name))
                     | none => true) &&
                    (match highB with
                     | some h => decide (r.cell ("Param: " ++ primary_param_name) ≤ h)
                     | none => true)) }
          else .error .invalidRange
      | _, _ => .error .invalidRange
  | _ => .ok df

/-- A sample row with one parameter column, used by concrete witnesses. -/
def sampleRow (b : String) (v : Int) : Row :=
  { benchmark := b, score := 1, error := 1, cells := [("Param: valueSize", v)] }

/-- A sample frame with primary values 15 and 25, for the range filter. -/
def dfRangeW : DataFrame :=
  { columns := ["Benchmark", "Param: valueSize"],
    rows := [sampleRow "getDirect" 15, sampleRow "getDirect" 25] }

/-- A sample frame with two benchmark names, for the benchmark filter. -/
def dfBenchW : DataFrame :=
  { columns := ["Benchmark", "Param: valueSize"],
    rows := [sampleRow "getDirect" 64, sampleRow "otherThing" 64] }

/-- A frame with zero rows, for the pipeline checkpoint witnesses. -/
def dfEmptyW : DataFrame := { columns := ["Benchmark"], rows := [] }

/-- A frame with a single row whose benchmark name contains a blank. -/
def dfBlankNameW : DataFrame :=
  { columns := ["Benchmark"],
    rows := [{ benchmark := "a b", score := 1, error := 1, cells := [] }] }

/-- A sample parameter map with two parameters, for the splitter witness. -/
def paramsW : Params := [("valueSize", "Param: valueSize"), ("checksum", "Param: checksum")]

/-- A sample parameter split with one primary and no secondary parameter. -/
def bmParamsW : BMParams :=
  { primary := [("valueSize", "Param: valueSize")], secondary := [] }

theorem lookupA_eq_none_iff {κ ν : Type} [DecidableEq κ] (m : List (κ × ν)) (k : κ) :
    lookupA m k = none ↔ k ∉ m.map Prod.fst := by
  induction m with
  | nil => simp [lookupA]
  | cons p ps ih =>
      by_cases h : p.1 = k
      · simp [lookupA, h]
      · simp only [lookupA, if_neg h, List.map_cons, List.mem_cons, ih]
        constructor
        · intro hk hor
          rcases hor with hor | hor
          · exact h hor.symm
          · exact hk hor
        · intro hk hm
          exact hk (Or.inr hm)

theorem lookupA_mem {κ ν : Type} [DecidableEq κ] {m : List (κ × ν)} {k : κ} {v : ν}
    (h : lookupA m k = some v) : (k, v) ∈ m := by
  induction m with
  | nil => simp [lookupA] at h
  | cons p ps ih =>
      by_cases hp : p.1 = k
      · rw [lookupA, if_pos hp] at h
        have hv : p.2 = v := by injection h
        have hpkv : p = (k, v) := by
          obtain ⟨a, b⟩ := p
          simp only at hp hv
          rw [hp, hv]
        rw [← hpkv]
        exact List.mem_cons_self _ _
      · rw [lookupA, if_neg hp] at h
        exact List.mem_cons_of_mem _ (ih h)

theorem lookupA_append {κ ν : Type} [DecidableEq κ] (m₁ m₂ : List (κ × ν)) (k : κ) :
    lookupA (m₁ ++ m₂) k =
      match lookupA m₁ k with
      | some v => some v
      | none => lookupA m₂ k := by
  induction m₁ with
  | nil => simp [lookupA]
  | cons p ps ih =>
      by_cases h : p.1 = k
      · simp [lookupA, h]
      · simp [lookupA, h, ih]

theorem lookupA_ensureKey_self {κ ν : Type} [DecidableEq κ] (m : List (κ × ν)) (k : κ) (v : ν) :
    lookupA (ensureKey m k v) k = some ((lookupA m k).getD v) := by
  unfold ensureKey
  cases h : lookupA m k with
  | some w => simp [h]
  | none => simp [h, lookupA_append, lookupA]

theorem lookupA_ensureKey_ne {κ ν : Type} [DecidableEq κ] (m : List (κ × ν)) (k : κ) (v : ν)
    (k' : κ) (h : k' ≠ k) : lookupA (ensureKey m k v) k' = lookupA m k' := by
  unfold ensureKey
  split
  · rfl
  · rw [lookupA_append]
    cases hh : lookupA m k' with
    | some w => rfl
    | none => simp [lookupA, Ne.symm h]

theorem lookupA_updateFirst_self {κ ν : Type} [DecidableEq κ] (m : List (κ × ν)) (k : κ)
    (f : ν → ν) : lookupA (updateFirst m k f) k = (lookupA m k).map f := by
  induction m with
  | nil => simp [lookupA, updateFirst]
  | cons p ps ih =>
      by_cases h : p.1 = k
      · simp [lookupA, updateFirst, h]
      · simp [lookupA, updateFirst, h, ih]

theorem lookupA_updateFirst_ne {κ ν : Type} [DecidableEq κ] (m : List (κ × ν)) (k : κ)
    (f : ν → ν) (k' : κ) (h : k' ≠ k) :
    lookupA (updateFirst m k f) k' = lookupA m k' := by
  induction m with
  | nil => simp [updateFirst]
  | cons p ps ih =>
      by_cases hp : p.1 = k
      · simp [lookupA, updateFirst, hp, Ne.symm h]
      · by_cases hq : p.1 = k'
        · simp [lookupA, updateFirst, hp, hq, h]
        · simp [lookupA, updateFirst, hp, hq, ih]

theorem lookupA_dictInsert_self {κ ν : Type} [DecidableEq κ] (m : List (κ × ν)) (k : κ) (v : ν) :
    lookupA (dictInsert m k v) k = some v := by
  induction m with
  | nil => simp [lookupA, dictInsert]
  | cons p ps ih =>
      by_cases h : p.1 = k
      · simp [lookupA, dictInsert, h]
      · simp [lookupA, dictInsert, h, ih]

theorem lookupA_dictInsert_ne {κ ν : Type} [DecidableEq κ] (m : List (κ × ν)) (k : κ) (v : ν)
    (k' : κ) (h : k' ≠ k) : lookupA (dictInsert m k v) k' = lookupA m k' := by
  induction m with
  | nil => simp [lookupA, dictInsert, Ne.symm h]
  | cons p ps ih =>
      by_cases hp : p.1 = k
      · simp [lookupA, dictInsert, hp, Ne.symm h]
      · by_cases hq : p.1 = k'
        · simp [lookupA, dictInsert, hp, hq, h]
        · simp [lookupA, dictInsert, hp, hq, ih]

theorem eraseKey_cons_perm {κ ν : Type} [DecidableEq κ] {m : List (κ × ν)} {k : κ} {v : ν}
    (h : lookupA m k = some v) : ((k, v) :: eraseKey m k).Perm m := by
  induction m with
  | nil => simp [lookupA] at h
  | cons p ps ih =>
      by_cases hp : p.1 = k
      · rw [lookupA, if_pos hp] at h
        have hv : p.2 = v := by injection h
        have hpkv : p = (k, v) := by
          obtain ⟨a, b⟩ := p
          simp only at hp hv
          rw [hp, hv]
        rw [eraseKey, if_pos hp, ← hpkv]
      · rw [lookupA, if_neg hp] at h
        rw [eraseKey, if_neg hp]
        exact (List.Perm.swap p (k, v) (eraseKey ps k)).trans ((ih h).cons p)

theorem eraseKey_not_mem_keys {κ ν : Type} [DecidableEq κ] {m : List (κ × ν)}
    (hnd : (m.map Prod.fst).Nodup) (k : κ) : k ∉ (eraseKey m k).map Prod.fst := by
  induction m with
  | nil => simp [eraseKey]
  | cons p ps ih =>
      rw [List.map_cons, List.nodup_cons] at hnd
      by_cases hp : p.1 = k
      · rw [eraseKey, if_pos hp, ← hp]
        exact hnd.1
      · rw [eraseKey, if_neg hp]
        simp only [List.map_cons, List.mem_cons]
        intro hor
        rcases hor with hor | hor
        · exact hp hor.symm
        · exact ih hnd.2 hor

/-- C4: `split_params` fails with the missing-primary-parameter error iff the
requested name is absent from the parameter map; on success the primary map
is the one entry for that name taken from the source map, primary and
secondary are disjoint and together are a permutation of the source map,
and the destructively consumed source map — which the returned secondary
aliases — no longer contains the primary name. -/
theorem split_params_spec (params : Params) (name : String)
    (hnd : (params.map Prod.fst).Nodup) :
    (split_params params name = .error .missingPrimaryParameter ↔
        name ∉ params.map Prod.fst)
    ∧ ∀ bp : BMParams, split_params params name = .ok bp →
        (∃ label, bp.primary = [(name, label)] ∧ (name, label) ∈ params)
        ∧ (∀ k, k ∈ bp.primary.map Prod.fst → k ∉ bp.secondary.map Prod.fst)
        ∧ (bp.primary ++ bp.secondary).Perm params
        ∧ name ∉ bp.secondary.map Prod.fst := by
  constructor
  · unfold split_params
    cases h : lookupA params name with
    | none =>
        simp only [true_iff, reduceCtorEq, iff_true]
        exact (lookupA_eq_none_iff params name).mp h
    | some label =>
        have hm : name ∈ params.map Prod.fst := by
          by_contra hc
          rw [(lookupA_eq_none_iff params name).mpr hc] at h
          cases h
        simp only [reduceCtorEq, false_iff, not_not]
        exact hm
  · intro bp hbp
    unfold split_params at hbp
    cases h : lookupA params name with
    | none => rw [h] at hbp; cases hbp
    | some label =>
        rw [h] at hbp
        injection hbp with hb
        subst hb
        refine ⟨⟨label, rfl, lookupA_mem h⟩, ?_, ?_, ?_⟩
        · intro k hk
          simp only [List.map_cons, List.map_nil, List.mem_singleton] at hk
          rw [hk]
          exact eraseKey_not_mem_keys hnd name
        · simpa using eraseKey_cons_perm h
        · exact eraseKey_not_mem_keys hnd name

/-- Witness for C4 at a concrete two-parameter map. -/
theorem split_params_spec_witness :
    split_params paramsW "valueSize" = .error .missingPrimaryParameter ↔
      "valueSize" ∉ paramsW.map Prod.fst :=
  (split_params_spec paramsW "valueSize" (by decide)).1

theorem decimate_getElem {α : Type} (l : List α) :
    ∀ i : Nat, (decimate l)[i]? = l[9 * i]? := by
  induction l using decimate.induct with
  | case1 => intro i; simp [decimate]
  | case2 x xs ih =>
      intro i
      rw [show decimate (x :: xs) = x :: decimate (xs.drop 8) from by rw [decimate]]
      cases i with
      | zero => simp
      | succ n =>
          have h9 : 9 * (n + 1) = (8 + 9 * n) + 1 := by ring
          rw [h9]
          simp only [List.getElem?_cons_succ]
          rw [ih n, List.getElem?_drop]

theorem decimate_length {α : Type} (l : List α) :
    (decimate l).length = (l.length + 8) / 9 := by
  induction l using decimate.induct with
  | case1 => simp [decimate]
  | case2 x xs ih =>
      rw [show decimate (x :: xs) = x :: decimate (xs.drop 8) from by rw [decimate]]
      simp only [List.length_cons, ih, List.length_drop]
      omega

/-- C7: decimation keeps exactly the rows at original indices 0, 9, 18, ...
(the i-th surviving row is the row at original index 9*i and the count is
the rounded-up ninth); in particular 18 rows leave exactly 2 survivors
(original indices 0 and 9), 9 rows leave 1 (index 0), 8 rows leave 1. -/
theorem decimate_every_ninth {α : Type} (l : List α) :
    (∀ i : Nat, (decimate l)[i]? = l[9 * i]?)
    ∧ (decimate l).length = (l.length + 8) / 9
    ∧ (l.length = 18 → (decimate l).length = 2)
    ∧ (l.length = 9 → (decimate l).length = 1)
    ∧ (l.length = 8 → (decimate l).length = 1) := by
  refine ⟨decimate_getElem l, decimate_length l, ?_, ?_, ?_⟩ <;>
    intro h <;> rw [decimate_length l, h]

/-- Witness for C7 on a concrete list of 18 rows: two survive, the second
being the row at original index 9. -/
theorem decimate_every_ninth_witness :
    (decimate (List.range 18)).length = 2 ∧ (decimate (List.range 18))[1]? = some 9 := by
  have h := decimate_every_ninth (List.range 18)
  refine ⟨h.2.2.1 rfl, ?_⟩
  rw [h.1 1]
  rfl

theorem getLast?_cons_of_some {α : Type} {l : List α} {d : α} (c : α)
    (h : l.getLast? = some d) : (c :: l).getLast? = some d := by
  cases l with
  | nil => simp at h
  | cons a t => rw [List.getLast?_cons_cons]; exact h

theorem extractParamsStep_eq (ps : Params) (c : String) :
    extractParamsStep ps c =
      if isParamColumn c then dictInsert ps (paramNameOf c) c else ps := by
  unfold extractParamsStep isParamColumn paramNameOf
  cases h : pySplit ':' c with
  | nil => simp
  | cons a t =>
      cases t with
      | nil => simp
      | cons b t2 =>
          cases t2 with
          | nil =>
              by_cases hf : a = "Param"
              · simp [hf]
              · simp [hf]
          | cons d t3 => simp

theorem lookupA_extract_go (columns : List String) :
    ∀ (ps : Params) (n : String),
      lookupA (columns.foldl extractParamsStep ps) n =
        match lastParamLabel columns n with
        | some c => some c
        | none => lookupA ps n := by
  induction columns with
  | nil => intro ps n; simp [lastParamLabel]
  | cons c cols ih =>
      intro ps n
      rw [List.foldl_cons, ih]
      by_cases hq : (isParamColumn c && decide (paramNameOf c = n)) = true
      · have hqc : isParamColumn c = true := (Bool.and_eq_true _ _ |>.mp hq).1
        have hqn : paramNameOf c = n :=
          of_decide_eq_true (Bool.and_eq_true _ _ |>.mp hq).2
        cases hlast : lastParamLabel cols n with
        | some d =>
            have hcons : lastParamLabel (c :: cols) n = some d := by
              unfold lastParamLabel at hlast ⊢
              rw [List.filter_cons, if_pos hq]
              exact getLast?_cons_of_some c hlast
            rw [hcons]
        | none =>
            have hnil : (cols.filter
                (fun c => isParamColumn c && decide (paramNameOf c = n))) = [] := by
              have := hlast
              unfold lastParamLabel at this
              exact List.getLast?_eq_none_iff.mp this
            have hcons : lastParamLabel (c :: cols) n = some c := by
              unfold lastParamLabel
              rw [List.filter_cons, if_pos hq, hnil]
              rfl
            rw [hcons]
            rw [extractParamsStep_eq, if_pos hqc, ← hqn]
            exact lookupA_dictInsert_self ps (paramNameOf c) c
      · have hcons : lastParamLabel (c :: cols) n = lastParamLabel cols n := by
          unfold lastParamLabel
          rw [List.filter_cons, if_neg hq]
        rw [hcons]
        have hstep : lookupA (extractParamsStep ps c) n = lookupA ps n := by
          rw [extractParamsStep_eq]
          by_cases hc : isParamColumn c
          · rw [if_pos hc]
            have hn : n ≠ paramNameOf c := by
              intro hn
              apply hq
              rw [Bool.and_eq_true]
              exact ⟨hc, decide_eq_true hn.symm⟩
            exact lookupA_dictInsert_ne ps (paramNameOf c) c n hn
          · rw [if_neg hc]
        cases lastParamLabel cols n with
        | some d => rfl
        | none => exact hstep

/-- C5 (amended): `extract_params` never fails and, for every name, the map
stores exactly the last column label that splits on `:` into exactly two
fields with the first field equal to `Param` — untrimmed, and with no
requirement that the second field be non-empty — and whose stripped second
field is that name; a name is a key of the map iff such a column exists. -/
theorem extract_params_char (columns : List String) :
    ∀ n : String,
      lookupA (extract_params columns) n = lastParamLabel columns n
      ∧ (n ∈ (extract_params columns).map Prod.fst ↔ (lastParamLabel columns n).isSome) := by
  intro n
  have hchar : lookupA (extract_params columns) n = lastParamLabel columns n := by
    unfold extract_params
    rw [lookupA_extract_go]
    cases lastParamLabel columns n <;> simp [lookupA]
  refine ⟨hchar, ?_⟩
  constructor
  · intro hm
    by_contra hns
    rw [Option.not_isSome_iff_eq_none] at hns
    rw [hns] at hchar
    exact (lookupA_eq_none_iff (extract_params columns) n).mp hchar hm
  · intro hs
    by_contra hm
    rw [(lookupA_eq_none_iff (extract_params columns) n).mpr hm] at hchar
    rw [← hchar] at hs
    simp at hs

/-- C5 counterexample: the label `Param:` has an empty second field, which
the claim's wording excludes, yet the code accepts it under the empty
parameter name; the label ` Param: x` has first field ` Param`, which the
claim's trimmed comparison accepts, yet the code rejects it. -/
theorem extract_params_claim_cex :
    extract_params ["Param:"] = [("", "Param:")]
    ∧ extract_params_claimed ["Param:"] = []
    ∧ extract_params [" Param: x"] = []
    ∧ extract_params_claimed [" Param: x"] = [("x", " Param: x")] :=
  ⟨by decide, by decide, by decide, by decide⟩

/-- C2 (amended): when the range string splits on `<` into exactly two
sides, `filter_for_range` resolves the left side to `-maxsize` (not minus
infinity) when empty and to its Python-int value otherwise, dually for the
right side with `+maxsize`; it fails with the invalid-range error exactly
when a non-empty side does not parse or the two resolved bounds (the
sentinels included) are out of order, and otherwise keeps exactly the rows
whose primary-parameter value lies in the inclusive resolved range.  A
range string with zero or more than one `<` leaves the frame unchanged. -/
theorem filter_for_range_char (df : DataFrame) (n : String) (select_range : String) :
    (∀ lo hi : String, pySplit '<' select_range = [lo, hi] →
      ((filter_for_range df n select_range = .error .invalidRange) ↔
          lowerRangeBound lo = none ∨ upperRangeBound hi = none ∨
            (∃ low high : Int, lowerRangeBound lo = some low ∧
              upperRangeBound hi = some high ∧ high < low))
      ∧ (∀ low high : Int, lowerRangeBound lo = some low → upperRangeBound hi = some high →
          low ≤ high →
          filter_for_range df n select_range =
            .ok { columns := df.columns,
                  rows := df.rows.filter (fun r =>
                    decide (low ≤ r.cell ("Param: " ++ n) ∧
                      r.cell ("Param: " ++ n) ≤ high)) }))
    ∧ ((pySplit '<' select_range).length ≠ 2 →
        filter_for_range df n select_range = .ok df) := by
  constructor
  · intro lo hi hsplit
    constructor
    · simp only [filter_for_range, hsplit]
      cases hl : lowerRangeBound lo with
      | none => simp [hl]
      | some low =>
          cases hh : upperRangeBound hi with
          | none => simp [hh]
          | some high =>
              simp only [hl, hh]
              by_cases hle : low ≤ high
              · rw [if_pos hle]
                simp only [reduceCtorEq, false_iff]
                intro hor
                rcases hor with hor | hor | ⟨l2, h2, hl2, hh2, hlt⟩
                · cases hor
                · cases hor
                · injection hl2 with hl2
                  injection hh2 with hh2
                  rw [← hl2, ← hh2] at hlt
                  exact absurd hle (Int.not_le.mpr hlt)
              · rw [if_neg hle]
                simp only [true_iff]
                exact Or.inr (Or.inr ⟨low, high, rfl, rfl, Int.not_le.mp hle⟩)
    · intro low high hl hh hle
      simp only [filter_for_range, hsplit, hl, hh]
      rw [if_pos hle]
  · intro hlen
    unfold filter_for_range
    cases hsplit : pySplit '<' select_range with
    | nil => rfl
    | cons a t =>
        cases t with
        | nil => rfl
        | cons b t2 =>
            cases t2 with
            | nil => rw [hsplit] at hlen; simp at hlen
            | cons d t3 => rfl

/-- Witness for C2 at the concrete range `10<20` on a frame with primary
values 15 and 25: only the row with value 15 survives. -/
theorem filter_for_range_char_witness :
    filter_for_range dfRangeW "valueSize" "10<20" =
      .ok { columns := ["Benchmark", "Param: valueSize"],
            rows := [sampleRow "getDirect" 15] } := by
  have h := ((filter_for_range_char dfRangeW "valueSize" "10<20").1 "10" "20"
      (by decide)).2 10 20 (by decide) (by decide) (by decide)
  rw [h]
  decide

/-- C2 counterexample: the range string `9223372036854775808<` has an empty
right side; the claim reads this as an unbounded upper end, so no failure,
but the code compares the parsed lower bound against the `maxsize`
sentinel and rejects the range as invalid. -/
theorem filter_for_range_claim_cex :
    filter_for_range dfRangeW "valueSize" "9223372036854775808<" = .error .invalidRange
    ∧ filter_for_range_claimed dfRangeW "valueSize" "9223372036854775808<" =
        .ok { columns := ["Benchmark", "Param: valueSize"], rows := [] } :=
  ⟨by decide, by decide⟩

theorem any_or_distrib {α : Type} (l : List α) (f g : α → Bool) :
    (l.any fun x => f x || g x) = (l.any f || l.any g) := by
  induction l with
  | nil => rfl
  | cons x xs ih =>
      simp only [List.any_cons, ih]
      cases f x <;> cases g x <;> simp

theorem scanMatch_no_whitespace (bms : List String) (cs : List Char)
    (hw : cs.all (fun c => !c.isWhitespace) = true) :
    scanMatch bms cs = bms.any (fun s => hasSubAnywhere s.data cs) := by
  induction cs with
  | nil => simp [scanMatch, hasSubAnywhere]
  | cons c rest ih =>
      rw [List.all_cons, Bool.and_eq_true] at hw
      have hc : c.isWhitespace = false := by
        cases h : c.isWhitespace
        · rfl
        · rw [h] at hw; cases hw.1
      rw [scanMatch, hc, ih hw.2]
      simp only [Bool.not_false, Bool.true_and]
      rw [← any_or_distrib]
      rfl

/-- C3 (amended): with a validated non-empty pattern list whose pieces
contain no regex metacharacters (pieces with metacharacters pass the
first-character validation but are spliced verbatim into the regex and
match as regex fragments, not as literal substrings), a row is kept iff
its benchmark name has an occurrence of some pattern substring preceded
only by non-whitespace characters — for benchmark names that contain no
whitespace this coincides with case-sensitive infix containment anywhere
in the name; a `None` or empty pattern list passes all rows unchanged. -/
theorem filter_for_benchmarks_substring_char (df : DataFrame) (rb : String)
    (hne : rb ≠ "")
    (hv : (pySplit ',' rb).all allowedFirstChar = true)
    (_hlit : (pySplit ',' rb).all regexLiteralPiece = true)
    (hw : ∀ r ∈ df.rows, r.benchmark.data.all (fun c => !c.isWhitespace) = true) :
    filter_for_benchmarks df (some rb) =
      .ok { columns := df.columns,
            rows := df.rows.filter (fun r =>
              (pySplit ',' rb).any (fun s => hasSubAnywhere s.data r.benchmark.data)) }
    ∧ filter_for_benchmarks df none = .ok df
    ∧ filter_for_benchmarks df (some "") = .ok df := by
  refine ⟨?_, rfl, rfl⟩
  simp only [filter_for_benchmarks, if_neg hne, hv, if_pos]
  have hfilter : df.rows.filter (fun r => scanMatch (pySplit ',' rb) r.benchmark.data) =
      df.rows.filter (fun r =>
        (pySplit ',' rb).any (fun s => hasSubAnywhere s.data r.benchmark.data)) := by
    apply List.filter_congr
    intro r hr
    exact scanMatch_no_whitespace (pySplit ',' rb) r.benchmark.data (hw r hr)
  rw [hfilter]

/-- Witness for C3 at the concrete pattern `Direct,Byte` on a frame whose
benchmark names are `getDirect` and `otherThing`: only the first row
survives. -/
theorem filter_for_benchmarks_substring_char_witness :
    filter_for_benchmarks dfBenchW (some "Direct,Byte") =
      .ok { columns := ["Benchmark", "Param: valueSize"],
            rows := [sampleRow "getDirect" 64] } := by
  have h := (filter_for_benchmarks_substring_char dfBenchW "Direct,Byte"
      (by decide) (by decide) (by decide) (by decide)).1
  rw [h]
  decide

/-- C3 counterexample: the single pattern `b` passes validation, `b` is a
case-sensitive infix of the benchmark name `a b`, yet the code's anchored
regex `\S*(b)\S*` cannot cross the blank and the row is dropped.  The
last two conjuncts record the second divergence from the claim: the piece
`a+` passes the first-character validation yet is not a regex-literal
piece and is not an infix of `xaa` — `re` matches `a+` against `xaa` as a
regex fragment, so the code keeps such a row although the claim's infix
reading would drop it. -/
theorem filter_for_benchmarks_claim_cex :
    allowedFirstChar "b" = true
    ∧ hasSubAnywhere "b".data "a b".data = true
    ∧ filter_for_benchmarks dfBlankNameW (some "b") =
        .ok { columns := ["Benchmark"], rows := [] }
    ∧ allowedFirstChar "a+" = true
    ∧ regexLiteralPiece "a+" = false
    ∧ hasSubAnywhere "a+".data "xaa".data = false :=
  ⟨by decide, by decide, by decide, by decide, by decide, by decide⟩

/-- C6: a non-empty pattern list makes `filter_for_benchmarks` fail with the
invalid-pattern error exactly when some comma-separated piece fails the
first-character test (an empty piece counts as failing), and that test
depends only on a piece's leading character, so pieces whose later
characters fall outside the class `[A-Za-z0-9_+-]` are accepted. -/
theorem filter_validation_first_char (df : DataFrame) (rb : String) (hne : rb ≠ "") :
    (filter_for_benchmarks df (some rb) = .error .invalidBenchmarkPattern ↔
        ∃ s ∈ pySplit ',' rb, allowedFirstChar s = false)
    ∧ ∀ s₁ s₂ : String, s₁.data.head? = s₂.data.head? →
        allowedFirstChar s₁ = allowedFirstChar s₂ := by
  constructor
  · simp only [filter_for_benchmarks, if_neg hne]
    by_cases hv : (pySplit ',' rb).all allowedFirstChar = true
    · rw [if_pos hv]
      simp only [reduceCtorEq, false_iff]
      intro hex
      obtain ⟨s, hs, hfalse⟩ := hex
      rw [List.all_eq_true] at hv
      rw [hv s hs] at hfalse
      cases hfalse
    · rw [if_neg hv]
      simp only [true_iff]
      rw [List.all_eq_true] at hv
      push_neg at hv
      obtain ⟨s, hs, hfalse⟩ := hv
      exact ⟨s, hs, Bool.not_eq_true _ |>.mp hfalse⟩
  · intro s₁ s₂ hh
    unfold allowedFirstChar
    cases h1 : s₁.data with
    | nil =>
        cases h2 : s₂.data with
        | nil => rfl
        | cons c t => rw [h1, h2] at hh; cases hh
    | cons c t =>
        cases h2 : s₂.data with
        | nil => rw [h1, h2] at hh; cases hh
        | cons c' t' =>
            rw [h1, h2] at hh
            injection hh with hh
            rw [hh]

/-- Witness for C6: the piece `a!!` (bad later characters) is accepted while
the piece `@x` (bad first character) triggers the invalid-pattern error. -/
theorem filter_validation_first_char_witness :
    filter_for_benchmarks dfBenchW (some "a!!,@x") = .error .invalidBenchmarkPattern :=
  (filter_validation_first_char dfBenchW "a!!,@x" (by decide)).1.mpr
    ⟨"@x", by decide, by decide⟩

theorem bucketOf_extractStep (params : BMParams) (rs : ResultSets) (row : Row)
    (k : SecondaryKey) (b : String) :
    bucketOf (extractStep params rs row) k b =
      bucketOf rs k b ++
        (if tuple_of_secondary_values params row = k ∧ row.benchmark = b
          then primaryEntries params row else []) := by
  by_cases hk : tuple_of_secondary_values params row = k
  · by_cases hb : row.benchmark = b
    · subst hk; subst hb
      simp only [extractStep, bucketOf]
      rw [lookupA_updateFirst_self, lookupA_ensureKey_self]
      simp only [Option.map_some', Option.getD_some]
      rw [lookupA_updateFirst_self, lookupA_ensureKey_self]
      simp
    · subst hk
      have hb' : b ≠ row.benchmark := fun h => hb h.symm
      simp only [extractStep, bucketOf]
      rw [lookupA_updateFirst_self, lookupA_ensureKey_self]
      simp only [Option.map_some', Option.getD_some]
      rw [lookupA_updateFirst_ne _ _ _ _ hb', lookupA_ensureKey_ne _ _ _ _ hb']
      simp [hb]
  · have hk' : k ≠ tuple_of_secondary_values params row := fun h => hk h.symm
    simp only [extractStep, bucketOf]
    rw [lookupA_updateFirst_ne _ _ _ _ hk', lookupA_ensureKey_ne _ _ _ _ hk']
    simp [hk]

theorem hasBucket_extractStep (params : BMParams) (rs : ResultSets) (row : Row)
    (k : SecondaryKey) (b : String) :
    hasBucket (extractStep params rs row) k b =
      (hasBucket rs k b ||
        decide (tuple_of_secondary_values params row = k ∧ row.benchmark = b)) := by
  by_cases hk : tuple_of_secondary_values params row = k
  · by_cases hb : row.benchmark = b
    · subst hk; subst hb
      simp only [extractStep, hasBucket]
      rw [lookupA_updateFirst_self, lookupA_ensureKey_self]
      simp only [Option.map_some', Option.getD_some]
      rw [lookupA_updateFirst_self, lookupA_ensureKey_self]
      simp
    · subst hk
      have hb' : b ≠ row.benchmark := fun h => hb h.symm
      simp only [extractStep, hasBucket]
      rw [lookupA_updateFirst_self, lookupA_ensureKey_self]
      simp only [Option.map_some', Option.getD_some]
      rw [lookupA_updateFirst_ne _ _ _ _ hb', lookupA_ensureKey_ne _ _ _ _ hb']
      cases hrs : lookupA rs (tuple_of_secondary_values params row) with
      | none => simp [hrs, lookupA, hb]
      | some set => simp [hrs, hb]
  · have hk' : k ≠ tuple_of_secondary_values params row := fun h => hk h.symm
    simp only [extractStep, hasBucket]
    rw [lookupA_updateFirst_ne _ _ _ _ hk', lookupA_ensureKey_ne _ _ _ _ hk']
    simp [hk]

theorem bucketOf_foldl (params : BMParams) (rows : List Row) :
    ∀ (rs : ResultSets) (k : SecondaryKey) (b : String),
      bucketOf (rows.foldl (extractStep params) rs) k b =
        bucketOf rs k b ++
          (rows.filter (fun r =>
            decide (tuple_of_secondary_values params r = k ∧ r.benchmark = b))).flatMap
            (primaryEntries params) := by
  induction rows with
  | nil => intro rs k b; simp
  | cons r rest ih =>
      intro rs k b
      rw [List.foldl_cons, ih, bucketOf_extractStep]
      by_cases h : tuple_of_secondary_values params r = k ∧ r.benchmark = b
      · simp [List.filter_cons, h, List.append_assoc]
      · simp [List.filter_cons, h]

theorem hasBucket_foldl (params : BMParams) (rows : List Row) :
    ∀ (rs : ResultSets) (k : SecondaryKey) (b : String),
      hasBucket (rows.foldl (extractStep params) rs) k b =
        (hasBucket rs k b ||
          rows.any (fun r =>
            decide (tuple_of_secondary_values params r = k ∧ r.benchmark = b))) := by
  induction rows with
  | nil => intro rs k b; simp
  | cons r rest ih =>
      intro rs k b
      rw [List.foldl_cons, ih, hasBucket_extractStep]
      simp [List.any_cons, Bool.or_assoc]

/-- C1: the grouping built by `extract_results_per_param` holds, under each
secondary-value tuple and each benchmark name, exactly the points of the
rows with that tuple and that name, in batch encounter order (the filter
preserves row order and nothing re-sorts by primary value); a bucket for a
(tuple, name) pair exists iff some row hits it, so rows agreeing on the
tuple but differing in benchmark name land in distinct buckets of the one
shared group, and rows agreeing on both append to the same bucket. -/
theorem extract_results_bucket_spec (df : DataFrame) (params : BMParams)
    (k : SecondaryKey) (b : String) :
    bucketOf (extract_results_per_param df params) k b =
      (df.rows.filter (fun r =>
        decide (tuple_of_secondary_values params r = k ∧ r.benchmark = b))).flatMap
        (primaryEntries params)
    ∧ hasBucket (extract_results_per_param df params) k b =
        df.rows.any (fun r =>
          decide (tuple_of_secondary_values params r = k ∧ r.benchmark = b)) := by
  unfold extract_results_per_param
  constructor
  · rw [bucketOf_foldl]
    simp [bucketOf, lookupA]
  · rw [hasBucket_foldl]
    simp [hasBucket, lookupA]

theorem bucketLens_ensureKey (set : List (String × List BMResult)) (b : String) :
    bucketLens (ensureKey set b []) = bucketLens set := by
  unfold ensureKey
  split
  · rfl
  · unfold bucketLens
    simp

theorem bucketLens_updateFirst_append (set : List (String × List BMResult)) (b : String)
    (new : List BMResult) (h : (lookupA set b).isSome = true) :
    bucketLens (updateFirst set b (fun pts => pts ++ new)) = bucketLens set + new.length := by
  induction set with
  | nil => simp [lookupA] at h
  | cons p ps ih =>
      by_cases hp : p.1 = b
      · simp only [updateFirst, if_pos hp, bucketLens, List.map_cons, List.sum_cons,
          List.length_append]
        omega
      · rw [lookupA, if_neg hp] at h
        simp only [updateFirst, if_neg hp, bucketLens, List.map_cons, List.sum_cons]
        have := ih h
        unfold bucketLens at this
        omega

theorem totalPoints_ensureKey (rs : ResultSets) (k : SecondaryKey) :
    totalPoints (ensureKey rs k []) = totalPoints rs := by
  unfold ensureKey
  split
  · rfl
  · unfold totalPoints bucketLens
    simp

theorem totalPoints_updateFirst (rs : ResultSets) (k : SecondaryKey)
    (F : List (String × List BMResult) → List (String × List BMResult)) (d : Nat)
    (hF : ∀ set, bucketLens (F set) = bucketLens set + d)
    (h : (lookupA rs k).isSome = true) :
    totalPoints (updateFirst rs k F) = totalPoints rs + d := by
  induction rs with
  | nil => simp [lookupA] at h
  | cons g gs ih =>
      by_cases hg : g.1 = k
      · simp only [updateFirst, if_pos hg, totalPoints, List.map_cons, List.sum_cons, hF]
        omega
      · rw [lookupA, if_neg hg] at h
        simp only [updateFirst, if_neg hg, totalPoints, List.map_cons, List.sum_cons]
        have := ih h
        unfold totalPoints at this
        omega

theorem totalPoints_extractStep (params : BMParams) (rs : ResultSets) (row : Row) :
    totalPoints (extractStep params rs row) = totalPoints rs + params.primary.length := by
  have hF : ∀ set, bucketLens
      (updateFirst (ensureKey set row.benchmark []) row.benchmark
        (fun pts => pts ++ primaryEntries params row)) =
      bucketLens set + params.primary.length := by
    intro set
    have hsome2 : (lookupA (ensureKey set row.benchmark []) row.benchmark).isSome = true := by
      rw [lookupA_ensureKey_self]; rfl
    rw [bucketLens_updateFirst_append _ _ _ hsome2, bucketLens_ensureKey]
    simp [primaryEntries]
  have hsome : (lookupA (ensureKey rs (tuple_of_secondary_values params row) [])
      (tuple_of_secondary_values params row)).isSome = true := by
    rw [lookupA_ensureKey_self]; rfl
  simp only [extractStep]
  rw [totalPoints_updateFirst _ _ _ _ hF hsome, totalPoints_ensureKey]

theorem totalPoints_foldl (params : BMParams) (rows : List Row) :
    ∀ rs : ResultSets, totalPoints (rows.foldl (extractStep params) rs) =
      totalPoints rs + rows.length * params.primary.length := by
  induction rows with
  | nil => intro rs; simp
  | cons r rest ih =>
      intro rs
      rw [List.foldl_cons, ih, totalPoints_extractStep, List.length_cons]
      ring

/-- C9: every row contributes exactly one point per primary-map entry, so
with the one-entry primary map a `ParameterSplit` always has, the total
number of points over all secondary keys and benchmark buckets equals the
number of rows in the filtered batch. -/
theorem extract_results_point_count (df : DataFrame) (params : BMParams)
    (hp : params.primary.length = 1) :
    totalPoints (extract_results_per_param df params) = df.rows.length := by
  unfold extract_results_per_param
  rw [totalPoints_foldl]
  simp [hp, totalPoints]

/-- Witness for C9 on a two-row frame with a one-entry primary map. -/
theorem extract_results_point_count_witness :
    totalPoints (extract_results_per_param dfBenchW bmParamsW) = 2 :=
  (extract_results_point_count dfBenchW bmParamsW (by decide)).trans (by decide)

theorem map_fst_updateFirst {κ ν : Type} [DecidableEq κ] (m : List (κ × ν)) (k : κ)
    (f : ν → ν) : (updateFirst m k f).map Prod.fst = m.map Prod.fst := by
  induction m with
  | nil => rfl
  | cons p ps ih =>
      by_cases hp : p.1 = k
      · simp [updateFirst, hp]
      · simp [updateFirst, hp, ih]

theorem map_fst_ensureKey {κ ν : Type} [DecidableEq κ] (m : List (κ × ν)) (k : κ) (v : ν) :
    (ensureKey m k v).map Prod.fst =
      if (lookupA m k).isSome then m.map Prod.fst else m.map Prod.fst ++ [k] := by
  unfold ensureKey
  split
  · rfl
  · simp

theorem keysOf_extractStep (params : BMParams) (rs : ResultSets) (row : Row) :
    keysOf (extractStep params rs row) =
      if (lookupA rs (tuple_of_secondary_values params row)).isSome
      then keysOf rs
      else keysOf rs ++ [tuple_of_secondary_values params row] := by
  simp only [extractStep, keysOf]
  rw [map_fst_updateFirst, map_fst_ensureKey]

/-- C10: with no secondary parameters every row's secondary tuple is the
empty tuple, and a non-empty batch therefore produces exactly one group,
keyed by the empty tuple, holding all the benchmark buckets. -/
theorem extract_results_no_secondary (df : DataFrame) (params : BMParams)
    (hs : params.secondary = []) (hne : df.rows ≠ []) :
    (∀ r ∈ df.rows, tuple_of_secondary_values params r = ([] : SecondaryKey))
    ∧ keysOf (extract_results_per_param df params) = [[]] := by
  have htuple : ∀ r : Row, tuple_of_secondary_values params r = ([] : SecondaryKey) := by
    intro r
    unfold tuple_of_secondary_values
    rw [hs]
    rfl
  refine ⟨fun r _ => htuple r, ?_⟩
  unfold extract_results_per_param
  obtain ⟨r0, rest, hrows⟩ := List.exists_cons_of_ne_nil hne
  have hinv : ∀ (rows : List Row) (rs : ResultSets), keysOf rs = [[]] →
      keysOf (rows.foldl (extractStep params) rs) = [[]] := by
    intro rows
    induction rows with
    | nil => intro rs h; exact h
    | cons r rest2 ih =>
        intro rs h
        rw [List.foldl_cons]
        apply ih
        rw [keysOf_extractStep, htuple r]
        have hsome : (lookupA rs ([] : SecondaryKey)).isSome = true := by
          cases rs with
          | nil => simp [keysOf] at h
          | cons g gs =>
              simp only [keysOf, List.map_cons, List.cons.injEq] at h
              rw [lookupA, if_pos h.1]
              rfl
        rw [if_pos hsome]
        exact h
  have hfirst : keysOf (extractStep params [] r0) = [[]] := by
    rw [keysOf_extractStep, htuple r0]
    simp [lookupA, keysOf]
  rw [hrows, List.foldl_cons]
  exact hinv rest _ hfirst

/-- Witness for C10 on a two-row frame with no secondary parameters. -/
theorem extract_results_no_secondary_witness :
    keysOf (extract_results_per_param dfBenchW bmParamsW) = [[]] :=
  (extract_results_no_secondary dfBenchW bmParamsW (by decide) (by decide)).2

theorem filter_for_benchmarks_error_kind (df : DataFrame) (report : Option String)
    (e : BenchmarkError) :
    filter_for_benchmarks df report = .error e → e = .invalidBenchmarkPattern := by
  cases report with
  | none => intro h; cases h
  | some rb =>
      by_cases hrb : rb = ""
      · simp only [filter_for_benchmarks, if_pos hrb]
        intro h
        cases h
      · simp only [filter_for_benchmarks, if_neg hrb]
        by_cases hv : (pySplit ',' rb).all allowedFirstChar = true
        · rw [if_pos hv]
          intro h
          cases h
        · rw [if_neg hv]
          intro h
          injection h with h
          exact h.symm

theorem filter_for_range_error_kind (df : DataFrame) (n range : String) (e : BenchmarkError) :
    filter_for_range df n range = .error e → e = .invalidRange := by
  intro h
  unfold filter_for_range at h
  split at h
  · split at h
    · split at h
      · cases h
      · injection h with h
        exact h.symm
    · injection h with h
      exact h.symm
  · cases h

theorem split_params_error_kind (params : Params) (n : String) (e : BenchmarkError) :
    split_params params n = .error e → e = .missingPrimaryParameter := by
  unfold split_params
  cases lookupA params n with
  | none => intro h; injection h with h; exact h.symm
  | some label => intro h; cases h

/-- C8: the pipeline driver raises the shared empty-result error at exactly
three checkpoints — after loading, after benchmark filtering, after range
filtering — whenever the batch there has zero rows; the filters themselves
never produce the empty-result error; and a successful run hands the later
stages a non-empty frame. -/
theorem process_benchmarks_empty_checkpoints (df : DataFrame) (primary : String)
    (report : Option String) (range : String) :
    (df.rows = [] → process_benchmarks df primary report range = .error .emptyResult)
    ∧ (∀ df1 : DataFrame, df.rows ≠ [] →
        filter_for_benchmarks df report = .ok df1 → df1.rows = [] →
        process_benchmarks df primary report range = .error .emptyResult)
    ∧ (∀ df1 df2 : DataFrame, df.rows ≠ [] →
        filter_for_benchmarks df report = .ok df1 → df1.rows ≠ [] →
        filter_for_range df1 primary range = .ok df2 → df2.rows = [] →
        process_benchmarks df primary report range = .error .emptyResult)
    ∧ (∀ e : BenchmarkError, filter_for_benchmarks df report = .error e → e ≠ .emptyResult)
    ∧ (∀ e : BenchmarkError, filter_for_range df primary range = .error e → e ≠ .emptyResult)
    ∧ (process_benchmarks df primary report range = .error .emptyResult →
        df.rows = [] ∨
          (∃ df1 : DataFrame, filter_for_benchmarks df report = .ok df1 ∧ df1.rows = []) ∨
          (∃ df1 df2 : DataFrame, filter_for_benchmarks df report = .ok df1 ∧
            filter_for_range df1 primary range = .ok df2 ∧ df2.rows = []))
    ∧ (∀ out : PipelineOutput, process_benchmarks df primary report range = .ok out →
        out.frame.rows ≠ []) := by
  refine ⟨?_, ?_, ?_, ?_, ?_, ?_, ?_⟩
  · intro h
    have h0 : df.rows.length = 0 := by rw [h]; rfl
    unfold process_benchmarks
    rw [if_pos h0]
  · intro df1 hne hfb h1
    have h0 : ¬df.rows.length = 0 := fun hl => hne (List.length_eq_zero.mp hl)
    have h1' : df1.rows.length = 0 := by rw [h1]; rfl
    unfold process_benchmarks
    rw [if_neg h0, hfb]
    simp [h1']
  · intro df1 df2 hne hfb h1ne hfr h2
    have h0 : ¬df.rows.length = 0 := fun hl => hne (List.length_eq_zero.mp hl)
    have h1' : ¬df1.rows.length = 0 := fun hl => h1ne (List.length_eq_zero.mp hl)
    have h2' : df2.rows.length = 0 := by rw [h2]; rfl
    unfold process_benchmarks
    rw [if_neg h0, hfb]
    simp [h1', hfr, h2']
  · intro e hfb
    rw [filter_for_benchmarks_error_kind df report e hfb]
    intro hh
    cases hh
  · intro e hfr
    rw [filter_for_range_error_kind df primary range e hfr]
    intro hh
    cases hh
  · intro hp
    unfold process_benchmarks at hp
    split at hp
    next h0 => exact Or.inl (List.length_eq_zero.mp h0)
    next h0 =>
      split at hp
      next e heq =>
        rw [filter_for_benchmarks_error_kind df report e heq] at hp
        simp at hp
      next df1 heq =>
        split at hp
        next h1 => exact Or.inr (Or.inl ⟨df1, heq, List.length_eq_zero.mp h1⟩)
        next h1 =>
          split at hp
          next e heq2 =>
            rw [filter_for_range_error_kind df1 primary range e heq2] at hp
            simp at hp
          next df2 heq2 =>
            split at hp
            next h2 =>
              exact Or.inr (Or.inr ⟨df1, df2, heq, heq2, List.length_eq_zero.mp h2⟩)
            next h2 =>
              split at hp
              next e heq3 =>
                rw [split_params_error_kind (extract_params df2.columns) primary e heq3] at hp
                simp at hp
              next params heq3 => cases hp
  · intro out hout
    unfold process_benchmarks at hout
    split at hout
    next h0 => cases hout
    next h0 =>
      split at hout
      next e heq => cases hout
      next df1 heq =>
        split at hout
        next h1 => cases hout
        next h1 =>
          split at hout
          next e heq2 => cases hout
          next df2 heq2 =>
            split at hout
            next h2 => cases hout
            next h2 =>
              split at hout
              next e heq3 => cases hout
              next params heq3 =>
                injection hout with hout
                rw [← hout]
                intro hnil
                apply h2
                simp only at hnil
                rw [hnil]
                rfl

/-- Witness for C8 on a concrete empty frame: the first checkpoint fires. -/
theorem process_benchmarks_empty_checkpoints_witness :
    process_benchmarks dfEmptyW "valueSize" none "1<4097" = .error .emptyResult :=
  (process_benchmarks_empty_checkpoints dfEmptyW "valueSize" none "1<4097").1 rfl
